import Mathlib

/-!
Verification of the client-side state-synchronization core of the WorkBoards
task-board frontend (`src/frontend/src/App.js` and its sibling revision
`src/unnamed/part_000`) against its natural-language specification.

The relevant fragments of the JavaScript source are shallowly embedded below:
the local item cache (`items` React state) is a `List Item`; JavaScript
numbers are modelled as exact rationals (`ℚ`); async request outcomes are
passed in explicitly (an `Option Item` server response, or a `Bool` success
flag); the per-lane reorder counters are a total function `String → ℕ`
(JavaScript object with `|| 0` default).
-/

/-- An item snapshot as handled by the frontend: the fields of the server's
item objects that `App.js` reads or writes. -/
structure Item where
  id : String
  boardId : String
  groupId : String
  status : String
  name : String
  assigneeId : Option String
  dueDate : Option String
  order : ℚ
  deleted : Bool
  deletedAt : Option String
deriving DecidableEq, Repr

/-- A partial patch as passed to `KanbanCard.commit` in `App.js`
(`commit({ name: v })`, `commit({ status: v })`, `commit({ assigneeId: id || null })`,
`commit({ dueDate: ... })`). A `none` field is absent from the patch. -/
structure Patch where
  name? : Option String := none
  status? : Option String := none
  assigneeId? : Option (Option String) := none
  dueDate? : Option (Option String) := none
deriving DecidableEq, Repr

/-- JavaScript object spread `{ ...x, ...patch }`: every field present in the
patch overwrites the corresponding field of `x`; absent fields are untouched. -/
def mergePatch (x : Item) (p : Patch) : Item :=
  { x with
    name := p.name?.getD x.name
    status := p.status?.getD x.status
    assigneeId := p.assigneeId?.getD x.assigneeId
    dueDate := p.dueDate?.getD x.dueDate }

/-- The order-key allocation inlined in the `onDrop` handler of `App.js`
(`if (prev == null && next == null) newOrder = Date.now(); else if (prev == null)
newOrder = next - 1; else if (next == null) newOrder = prev + 1; else
newOrder = (prev + next) / 2;`). `now` stands for `Date.now()`. -/
def allocate (now : ℚ) (prevO nextO : Option ℚ) : ℚ :=
  if prevO.isNone && nextO.isNone then now
  else if prevO.isNone then nextO.getD 0 - 1
  else if nextO.isNone then prevO.getD 0 + 1
  else (prevO.getD 0 + nextO.getD 0) / 2

/-- Round-half-to-even of a rational to an integer (the tie-breaking rule of
IEEE-754 round-to-nearest): the nearest integer, and the even one when exactly
halfway. -/
def rhe (q : ℚ) : ℤ :=
  let f := ⌊q⌋
  let r := q - f
  if r < 1/2 then f
  else if 1/2 < r then f + 1
  else if f % 2 = 0 then f else f + 1

/-- Round a positive rational to 53 significant binary digits, to nearest with
ties to even: the unit in the last place at magnitude `q` is
`2 ^ (⌊log₂ q⌋ - 52)`, and `q` is rounded to the nearest multiple of it. -/
def roundPos (q : ℚ) : ℚ :=
  let u := (2 : ℚ) ^ (Int.log 2 q - 52)
  (rhe (q / u) : ℚ) * u

/-- IEEE-754 binary64 round-to-nearest, ties-to-even, with the exponent range
left unbounded: the 53-bit significand (the source of the rounding the
JavaScript engine applies to every arithmetic result) is modelled exactly;
overflow, underflow and subnormals are not modelled. At the magnitudes used
below this coincides exactly with binary64, and omitting overflow only adds
behaviors in the double arithmetic's disfavor, never removes any. -/
def roundRNE (q : ℚ) : ℚ :=
  if q = 0 then 0 else if 0 < q then roundPos q else -roundPos (-q)

/-- Binary64 addition: the exact sum, correctly rounded. -/
def fpAdd (x y : ℚ) : ℚ := roundRNE (x + y)

/-- Binary64 subtraction: the exact difference, correctly rounded. -/
def fpSub (x y : ℚ) : ℚ := roundRNE (x - y)

/-- Binary64 division: the exact quotient, correctly rounded. -/
def fpDiv (x y : ℚ) : ℚ := roundRNE (x / y)

/-- A rational is representable as a binary64 significand: an integer of
magnitude below `2 ^ 53` times a power of two. -/
def isRepr (q : ℚ) : Prop := ∃ m e : ℤ, |m| < 2 ^ 53 ∧ q = (m : ℚ) * (2 : ℚ) ^ e

/-- The `onDrop` order-key allocation of `allocate`, with each arithmetic
operation performed in binary64 as the JavaScript engine does (JS numbers are
IEEE-754 doubles): the branch structure is identical to `allocate`, but
`next - 1`, `prev + 1` and `(prev + next) / 2` are each correctly rounded. -/
def allocateFP (now : ℚ) (prevO nextO : Option ℚ) : ℚ :=
  if prevO.isNone && nextO.isNone then now
  else if prevO.isNone then fpSub (nextO.getD 0) 1
  else if nextO.isNone then fpAdd (prevO.getD 0) 1
  else fpDiv (fpAdd (prevO.getD 0) (nextO.getD 0)) 2

/-- The lane key `` `${groupId}:${status}` `` used by `maybeCompact`. -/
def laneKey (groupId status : String) : String :=
  groupId ++ ":" ++ status

/-- The gap computed by `maybeCompact` in `App.js`:
`next != null && prev != null ? Math.abs(next - prev) : 1`. -/
def gapOf (prevO nextO : Option ℚ) : ℚ :=
  match nextO, prevO with
  | some n, some p => |n - p|
  | _, _ => 1

/-- `maybeCompact(groupId, status, prev, next, idx)` from `App.js`: increments
the per-lane reorder counter and decides whether to issue a compaction request
(`gap < 1e-3 || counter % 10 === 0`). Returns the updated counter map and
whether the compaction request is issued. -/
def maybeCompact (counters : String → ℕ) (groupId status : String)
    (prevO nextO : Option ℚ) : (String → ℕ) × Bool :=
  let key := laneKey groupId status
  let c := counters key + 1
  let counters' := fun k => if k = key then c else counters k
  let gap := gapOf prevO nextO
  (counters', decide (gap < 1/1000) || decide (c % 10 = 0))

/-- The kinds of push-channel messages handled by the realtime event handler
(`item.created` / `item.updated` / `item.deleted` / `item.restored`). -/
inductive EventType where
  | created : EventType
  | updated : EventType
  | deleted : EventType
  | restored : EventType
deriving DecidableEq, Repr

/-- A push-channel message `{ type, item }` as dispatched on the `wb:ws`
custom event. -/
structure Msg where
  type : EventType
  item : Item
deriving DecidableEq, Repr

/-- The realtime event `handler` of `BoardView` in `App.js`: events whose item
belongs to another board are ignored; `created` appends; `updated` replaces by
id; `deleted` replaces when tombstones are shown and filters out otherwise;
`restored` replaces when present and appends otherwise. -/
def handler (boardId : String) (showDeleted : Bool) (msg : Msg)
    (items : List Item) : List Item :=
  if msg.item.boardId = boardId then
    match msg.type with
    | .created => items ++ [msg.item]
    | .updated => items.map (fun x => if x.id = msg.item.id then msg.item else x)
    | .deleted =>
        if showDeleted then items.map (fun x => if x.id = msg.item.id then msg.item else x)
        else items.filter (fun x => x.id != msg.item.id)
    | .restored =>
        if items.any (fun x => x.id == msg.item.id) then
          items.map (fun x => if x.id = msg.item.id then msg.item else x)
        else items ++ [msg.item]
  else items

/-- The optimistic step of `KanbanCard.commit` in `App.js`:
`setItems(prev => prev.map(x => x.id === it.id ? { ...x, ...patch } : x))`. -/
def commitOptimistic (itId : String) (patch : Patch) (items : List Item) : List Item :=
  items.map (fun x => if x.id = itId then mergePatch x patch else x)

/-- The reconcile step of `KanbanCard.commit` in `App.js`, run when the
response `upd` of `updateItem` arrives:
`setItems(prev => prev.map(x => x.id === it.id ? upd : x))`. The response is
applied unconditionally on arrival; the source keeps no sequence numbers. -/
def commitReconcile (itId : String) (upd : Item) (items : List Item) : List Item :=
  items.map (fun x => if x.id = itId then upd else x)

/-- The `newOrder` default of `moveItem` in `App.js`: the desired order if
given, else one past the last item of the target lane, else `Date.now()`. -/
def moveItemOrder (desiredOrder : Option ℚ) (target : List Item) (now : ℚ) : ℚ :=
  match desiredOrder with
  | some o => o
  | none =>
      match target.getLast? with
      | some lastIt => lastIt.order + 1
      | none => now

/-- `moveItem` from `App.js`, with the outcome of the remote `updateItem`
request passed in as `result` (`some upd` = the server's canonical response,
`none` = the request failed). The optimistic patch is applied first; on
success the response replaces the item; on failure the catch block is
`/*ignore*/` and the optimistic state is left as is. -/
def moveItem (itemId toGroupId toStatus : String) (desiredOrder : Option ℚ)
    (target : List Item) (now : ℚ) (result : Option Item)
    (items : List Item) : List Item :=
  let newOrder := moveItemOrder desiredOrder target now
  let optimistic := items.map (fun i =>
    if i.id = itemId then { i with groupId := toGroupId, status := toStatus, order := newOrder } else i)
  match result with
  | some upd => optimistic.map (fun i => if i.id = upd.id then upd else i)
  | none => optimistic

/-- The insert-or-replace used by `undo` and the `restored` branch in
`App.js`: `exists ? prev.map(x => x.id === it.id ? it : x) : [...prev, it]`. -/
def upsert (it : Item) (items : List Item) : List Item :=
  if items.any (fun x => x.id == it.id) then
    items.map (fun x => if x.id = it.id then it else x)
  else items ++ [it]

/-- The optimistic step of `softDelete` in `App.js`: with tombstones shown the
item is marked `deleted` with a timestamp; otherwise it is filtered out of the
cache. -/
def softDeleteOptimistic (item : Item) (showDeleted : Bool) (now : String)
    (items : List Item) : List Item :=
  if showDeleted then
    items.map (fun x => if x.id = item.id then { x with deleted := true, deletedAt := some now } else x)
  else items.filter (fun x => x.id != item.id)

/-- `softDelete` from `App.js` with its request outcomes passed in
explicitly. `deleteOk` is whether the `PATCH { deleted: true }` request
succeeds; when it fails the catch block awaits `undo()`, which issues
`updateItem(item, { deleted: false })` — `undoResp` is that request's response
(`none` = it failed too, so its `setItems` never runs). The result is the
final cache together with the list of issued patch requests, each recorded as
`(itemId, deleted-flag sent)`. -/
def softDelete (item : Item) (showDeleted : Bool) (now : String)
    (deleteOk : Bool) (undoResp : Option Item)
    (items : List Item) : List Item × List (String × Bool) :=
  let afterOpt := softDeleteOptimistic item showDeleted now items
  if deleteOk then (afterOpt, [(item.id, true)])
  else
    match undoResp with
    | some it2 => (upsert it2 afterOpt, [(item.id, true), (item.id, false)])
    | none => (afterOpt, [(item.id, true), (item.id, false)])

/-- Events observed by the polling effect of `BoardView`: the passage of one
time unit (1000 ms of the 5000 ms interval being 1 of 5 units), and the
websocket `connected` state changing (the effect's only relevant dependency). -/
inductive ConnEvent where
  | tick : ConnEvent
  | setConnected : Bool → ConnEvent
deriving DecidableEq, Repr

/-- The state of the polling effect
`useEffect(() => { if (!board || connected) return; const t = setInterval(() =>
refetch(), 5000); return () => clearInterval(t); }, [connected, ...])`:
the websocket `connected` flag and the pending interval, as a countdown in
time units until the next `refetch()` (`none` = no interval installed). -/
structure PollState where
  connected : Bool
  timer : Option ℕ
deriving DecidableEq, Repr

/-- On mount `connected` is `false` (`useState(false)`), so the effect installs
the interval with a full period pending. -/
def pollInit : PollState := ⟨false, some 5⟩

/-- One step of the polling effect. `tick`: an installed interval counts down
and fires `refetch()` when its period elapses, then rearms. `setConnected b`:
when the `connected` dependency changes, the effect cleanup clears the old
interval and the re-run installs a fresh one exactly when not connected.
Returns the new state and whether a poll refetch was issued by this step. -/
def pstep : PollState → ConnEvent → PollState × Bool
  | s, ConnEvent.tick =>
      match s.timer with
      | none => (s, false)
      | some n =>
          if n ≤ 1 then ({ s with timer := some 5 }, true)
          else ({ s with timer := some (n - 1) }, false)
  | s, ConnEvent.setConnected b =>
      if b = s.connected then (s, false)
      else ({ connected := b, timer := if b then none else some 5 }, false)

/-- The polling state reached from mount after a sequence of events. -/
def runPoll (evs : List ConnEvent) : PollState :=
  evs.foldl (fun s e => (pstep s e).1) pollInit

/-- Whether at least one poll refetch is issued within the next `k` ticks
(no connection change intervening). -/
def firesWithin : PollState → ℕ → Bool
  | _, 0 => false
  | s, k + 1 => (pstep s ConnEvent.tick).2 || firesWithin (pstep s ConnEvent.tick).1 k

/-- Invariant of the polling effect: while connected no interval is installed;
while disconnected an interval is installed with between 1 and 5 time units
pending. -/
def PollInv (s : PollState) : Prop :=
  (s.connected = true → s.timer = none) ∧
  (s.connected = false → ∃ n, s.timer = some n ∧ 1 ≤ n ∧ n ≤ 5)

/-! ## Helper lemmas -/

/-- An upserted item is a member of the result. -/
theorem mem_upsert_self (it : Item) (l : List Item) : it ∈ upsert it l := by
  unfold upsert
  by_cases h : l.any (fun x => x.id == it.id) = true
  · rw [if_pos h]
    rcases List.any_eq_true.1 h with ⟨x, hx, hbeq⟩
    have hxid : x.id = it.id := by simpa using hbeq
    exact List.mem_map.2 ⟨x, hx, by simp [hxid]⟩
  · rw [if_neg h]
    simp

/-- The binade of `2 + 2⁻⁵²` is `[2, 4)`. -/
theorem log_two_add_ulp : Int.log 2 (2 + (2 : ℚ) ^ (-52 : ℤ)) = 1 := by
  have hpos : (0 : ℚ) < (2 : ℚ) ^ (-52 : ℤ) := by positivity
  rw [Int.log_of_one_le_right 2 (by linarith)]
  have h1 : ⌊(2 + (2 : ℚ) ^ (-52 : ℤ))⌋₊ = 2 := by
    rw [Nat.floor_eq_iff (by linarith)]
    norm_num [zpow_neg]
  rw [h1]
  have hl : Nat.log 2 2 = 1 := @Nat.log_eq_of_pow_le_of_lt_pow 2 1 2 (by norm_num) (by norm_num)
  rw [hl]
  norm_num

/-- Round-half-to-even at the tie `2⁵² + 1/2` picks the even neighbor `2⁵²`. -/
theorem rhe_tie_even : rhe (4503599627370496 + 1/2 : ℚ) = 4503599627370496 := by
  have hf : ⌊(4503599627370496 + 1/2 : ℚ)⌋ = 4503599627370496 :=
    Int.floor_eq_iff.2 ⟨by norm_num, by norm_num⟩
  simp only [rhe, hf]
  norm_num

/-- The binary64 rounding of `2 + 2⁻⁵²` is `2`: the value is exactly halfway
between the adjacent doubles `2` and `2 + 2⁻⁵¹`, and ties go to the even
significand. -/
theorem roundRNE_two_add_ulp : roundRNE (2 + (2 : ℚ) ^ (-52 : ℤ)) = 2 := by
  have hpos : (0 : ℚ) < (2 : ℚ) ^ (-52 : ℤ) := by positivity
  have hne : (2 + (2 : ℚ) ^ (-52 : ℤ)) ≠ 0 := by linarith
  have hgt : (0 : ℚ) < 2 + (2 : ℚ) ^ (-52 : ℤ) := by linarith
  rw [roundRNE, if_neg hne, if_pos hgt, roundPos]
  simp only [log_two_add_ulp]
  have hx : (2 + (2 : ℚ) ^ (-52 : ℤ)) / (2 : ℚ) ^ (1 - 52 : ℤ) = 4503599627370496 + 1/2 := by
    norm_num [zpow_neg]
  rw [hx, rhe_tie_even]
  norm_num [zpow_neg]

/-- `1` is a binary64 value, so rounding fixes it. -/
theorem roundRNE_one : roundRNE (1 : ℚ) = 1 := by
  rw [roundRNE, if_neg (by norm_num), if_pos (by norm_num), roundPos]
  simp only [Int.log_one_right]
  have hx : (1 : ℚ) / (2 : ℚ) ^ (0 - 52 : ℤ) = 4503599627370496 := by
    norm_num [zpow_neg]
  rw [hx]
  have hf : ⌊(4503599627370496 : ℚ)⌋ = 4503599627370496 := by norm_num
  simp only [rhe, hf]
  norm_num [zpow_neg]

/-- The polling invariant holds at mount. -/
theorem pollInv_init : PollInv pollInit := by
  constructor
  · intro h; simp [pollInit] at h
  · intro _; exact ⟨5, rfl, by norm_num, by norm_num⟩

/-- The polling invariant is preserved by every step. -/
theorem pollInv_step (s : PollState) (e : ConnEvent) (h : PollInv s) :
    PollInv (pstep s e).1 := by
  obtain ⟨hc, hd⟩ := h
  cases e with
  | tick =>
      cases hs : s.timer with
      | none => simpa [pstep, hs] using ⟨hc, hd⟩
      | some n =>
          have hcon : s.connected = false := by
            cases hcv : s.connected
            · rfl
            · exact absurd (hc hcv) (by simp [hs])
          obtain ⟨m, hm, hm1, hm5⟩ := hd hcon
          have hnm : n = m := by rw [hs] at hm; exact Option.some.inj hm
          subst hnm
          by_cases hn : n ≤ 1
          · refine ⟨fun hcc => ?_, fun _ => ⟨5, ?_, by norm_num, by norm_num⟩⟩
            · simp [pstep, hs, hn, hcon] at hcc
            · simp [pstep, hs, hn]
          · refine ⟨fun hcc => ?_, fun _ => ⟨n - 1, ?_, by omega, by omega⟩⟩
            · simp [pstep, hs, hn, hcon] at hcc
            · simp [pstep, hs, hn]
  | setConnected b =>
      by_cases hb : b = s.connected
      · simpa [pstep, hb] using ⟨hc, hd⟩
      · constructor
        · intro hcc
          simp [pstep, hb] at hcc ⊢
          simp [hcc]
        · intro hcc
          simp [pstep, hb] at hcc ⊢
          exact ⟨5, by simp [hcc], by norm_num, by norm_num⟩

/-- The polling invariant holds in every reachable state. -/
theorem pollInv_run (evs : List ConnEvent) : PollInv (runPoll evs) := by
  have key : ∀ (l : List ConnEvent) (s : PollState), PollInv s →
      PollInv (l.foldl (fun s e => (pstep s e).1) s) := by
    intro l
    induction l with
    | nil => intro s h; exact h
    | cons e rest ih => intro s h; exact ih _ (pollInv_step s e h)
  exact key evs pollInit pollInv_init

/-- A disconnected state with an armed countdown of at most 5 fires a poll
refetch within 5 ticks. -/
theorem firesWithin_of_timer (c : Bool) (n : ℕ) (h1 : 1 ≤ n) (h5 : n ≤ 5) :
    firesWithin ⟨c, some n⟩ 5 = true := by
  interval_cases n <;> cases c <;> rfl

/-! ## Claim theorems -/

/-- Claim C3: the order-key allocation of `onDrop` returns the current time in
milliseconds when both neighbors are absent, `nextOrder - 1` when only
`nextOrder` is present, `prevOrder + 1` when only `prevOrder` is present, and
the arithmetic mean `(prevOrder + nextOrder) / 2` when both are present; it is
a pure total function of its inputs. -/
theorem allocate_case_analysis : ∀ (now p n : ℚ),
    allocate now none none = now ∧
    allocate now none (some n) = n - 1 ∧
    allocate now (some p) none = p + 1 ∧
    allocate now (some p) (some n) = (p + n) / 2 := by
  intro now p n
  exact ⟨rfl, rfl, rfl, rfl⟩

/-- Claim C4 (counterexample): in the binary64 arithmetic the source actually
runs, strict betweenness fails for adjacent doubles. At `p = 1` and
`n = 1 + 2⁻⁵²` (the double right after 1, both representable, `p < n`), the
allocator's both-present case computes `fpDiv (fpAdd p n) 2`: the exact sum
`2 + 2⁻⁵²` is halfway between the adjacent doubles `2` and `2 + 2⁻⁵¹` and
rounds to `2` (ties to even), and `2 / 2 = 1` exactly — so the allocator
returns `1 = p`, which is not strictly between `p` and `n`, refuting the
claim's `p < allocate(p, n) < n` for all floating-point `p ≠ n`. -/
theorem allocateFP_adjacent_not_strict_cex :
    isRepr 1 ∧ isRepr (1 + (2 : ℚ) ^ (-52 : ℤ)) ∧
    (1 : ℚ) < 1 + (2 : ℚ) ^ (-52 : ℤ) ∧
    allocateFP 0 (some 1) (some (1 + (2 : ℚ) ^ (-52 : ℤ))) = 1 ∧
    ¬((1 : ℚ) < allocateFP 0 (some 1) (some (1 + (2 : ℚ) ^ (-52 : ℤ)))) := by
  have hpos : (0 : ℚ) < (2 : ℚ) ^ (-52 : ℤ) := by positivity
  have halloc : allocateFP 0 (some 1) (some (1 + (2 : ℚ) ^ (-52 : ℤ))) = 1 := by
    simp only [allocateFP, Option.isNone_some, Bool.and_false, Bool.false_eq_true,
      if_false, Option.getD_some, fpAdd, fpDiv]
    rw [show (1 : ℚ) + (1 + (2 : ℚ) ^ (-52 : ℤ)) = 2 + (2 : ℚ) ^ (-52 : ℤ) by ring,
      roundRNE_two_add_ulp]
    norm_num [roundRNE_one]
  refine ⟨⟨1, 0, by norm_num, by norm_num⟩, ⟨4503599627370497, -52, by norm_num, ?_⟩,
    by linarith, halloc, by rw [halloc]; exact lt_irrefl 1⟩
  rw [zpow_neg]
  norm_num

/-- Claim C4 (amended): the allocator's both-present case computes the
binary64 rounding of the exact midpoint `(p + n) / 2`; the exact midpoint
always lies strictly between the two neighbors — `p < (p+n)/2 < n` whenever
`p < n`, and strictly between `min p n` and `max p n` whenever `p ≠ n` — but
the computed (rounded) value need not: for adjacent doubles it collapses onto
an endpoint. -/
theorem allocate_strictly_between : ∀ (now p n : ℚ),
    (p < n → p < allocate now (some p) (some n) ∧ allocate now (some p) (some n) < n) ∧
    (p ≠ n → min p n < allocate now (some p) (some n) ∧ allocate now (some p) (some n) < max p n) := by
  intro now p n
  have ha : allocate now (some p) (some n) = (p + n) / 2 := rfl
  constructor
  · intro h
    rw [ha]
    constructor <;> linarith
  · intro h
    rcases lt_or_gt_of_ne h with hlt | hgt
    · rw [ha, min_eq_left hlt.le, max_eq_right hlt.le]
      constructor <;> linarith
    · rw [ha, min_eq_right hgt.le, max_eq_left hgt.le]
      constructor <;> linarith

/-- Witness for C4 at `p = 1`, `n = 2`: the allocator returns a value strictly
between them. -/
theorem allocate_strictly_between_witness :
    (1 : ℚ) < allocate 0 (some 1) (some 2) ∧ allocate 0 (some 1) (some 2) < 2 :=
  (allocate_strictly_between 0 1 2).1 (by norm_num)

/-- Claim C5: `maybeCompact` increments exactly the targeted lane's counter,
and issues a compaction request exactly when the gap is below `1e-3` or the
incremented counter is divisible by 10; in particular the 10th insertion in a
lane (counter previously 9) issues a compaction request regardless of gap. -/
theorem maybeCompact_spec : ∀ (counters : String → ℕ) (g st : String) (prevO nextO : Option ℚ),
    ((maybeCompact counters g st prevO nextO).1 (laneKey g st) = counters (laneKey g st) + 1) ∧
    (∀ k, k ≠ laneKey g st → (maybeCompact counters g st prevO nextO).1 k = counters k) ∧
    ((maybeCompact counters g st prevO nextO).2 = true ↔
      gapOf prevO nextO < 1/1000 ∨ (counters (laneKey g st) + 1) % 10 = 0) ∧
    (counters (laneKey g st) = 9 → (maybeCompact counters g st prevO nextO).2 = true) := by
  intro counters g st prevO nextO
  refine ⟨by simp [maybeCompact], fun k hk => by simp [maybeCompact, hk], ?_, ?_⟩
  · simp [maybeCompact]
  · intro h9
    simp [maybeCompact, h9]

/-- Witness for C5: with the lane counter at 9 (so this is the 10th insertion)
and a healthy gap of 1, the compaction request is issued. -/
theorem maybeCompact_spec_witness :
    (maybeCompact (fun _ => 9) "g1" "Todo" (some 1) (some 2)).2 = true :=
  (maybeCompact_spec (fun _ => 9) "g1" "Todo" (some 1) (some 2)).2.2.2 rfl

/-- Claim C8: for every cache state and every `updated` push event, applying
the same `updated` event twice to the cache yields exactly the same cache
state as applying it once. -/
theorem handler_updated_idempotent : ∀ (boardId : String) (showDeleted : Bool) (it : Item) (items : List Item),
    handler boardId showDeleted ⟨.updated, it⟩ (handler boardId showDeleted ⟨.updated, it⟩ items) =
      handler boardId showDeleted ⟨.updated, it⟩ items := by
  intro b sd it items
  by_cases hb : it.boardId = b
  · simp only [handler, hb, if_true]
    rw [List.map_map]
    congr 1
    funext x
    by_cases hx : x.id = it.id <;> simp [Function.comp, hx]
  · simp [handler, hb]

/-- Claim C10: applying an `updated` push event whose item identity is not
present in the cache leaves the cache entirely unchanged — the `updated` case
never inserts an absent item. -/
theorem handler_updated_absent_unchanged : ∀ (boardId : String) (showDeleted : Bool) (it : Item) (items : List Item),
    (∀ x ∈ items, x.id ≠ it.id) →
    handler boardId showDeleted ⟨.updated, it⟩ items = items := by
  intro b sd it items habs
  by_cases hb : it.boardId = b
  · simp only [handler, hb, if_true]
    have h1 : items.map (fun x => if x.id = it.id then it else x) = items.map id := by
      apply List.map_congr_left
      intro a ha
      simp [habs a ha]
    rw [h1, List.map_id]
  · simp [handler, hb]

/-- Witness for C10: an `updated` event for id `i2` leaves a cache holding
only id `i1` unchanged. -/
theorem handler_updated_absent_unchanged_witness :
    handler "b1" false
      ⟨.updated, { id := "i2", boardId := "b1", groupId := "g1", status := "Doing", name := "u",
                   assigneeId := none, dueDate := none, order := 2, deleted := false, deletedAt := none }⟩
      [{ id := "i1", boardId := "b1", groupId := "g1", status := "Todo", name := "t",
         assigneeId := none, dueDate := none, order := 1, deleted := false, deletedAt := none }] =
      [{ id := "i1", boardId := "b1", groupId := "g1", status := "Todo", name := "t",
         assigneeId := none, dueDate := none, order := 1, deleted := false, deletedAt := none }] :=
  handler_updated_absent_unchanged "b1" false _ _ (by decide)

/-- Claim C1 (counterexample): the code has no sequence-number guard. Item
`i1` (name `"orig"`) receives mutation 1 (rename to `"A"`) then mutation 2
(rename to `"B"`); response 2 is reconciled first, then late response 1
arrives. The cache then holds response 1's data (name `"A"`), not response
2's (name `"B"`): the late response is not discarded and does overwrite the
cache, contradicting the claim. -/
theorem commit_stale_response_cex :
    (commitReconcile "i1"
        { id := "i1", boardId := "b1", groupId := "g1", status := "Todo", name := "A",
          assigneeId := none, dueDate := none, order := 1, deleted := false, deletedAt := none }
        (commitReconcile "i1"
          { id := "i1", boardId := "b1", groupId := "g1", status := "Todo", name := "B",
            assigneeId := none, dueDate := none, order := 1, deleted := false, deletedAt := none }
          (commitOptimistic "i1" { name? := some "B" }
            (commitOptimistic "i1" { name? := some "A" }
              [{ id := "i1", boardId := "b1", groupId := "g1", status := "Todo", name := "orig",
                 assigneeId := none, dueDate := none, order := 1, deleted := false, deletedAt := none }]))) =
      [{ id := "i1", boardId := "b1", groupId := "g1", status := "Todo", name := "A",
         assigneeId := none, dueDate := none, order := 1, deleted := false, deletedAt := none }]) ∧
    ("A" : String) ≠ "B" := by
  constructor
  · rfl
  · decide

/-- Claim C1 (amended): `commit` applies each mutation's server response to the
cache unconditionally on arrival, with no sequence-number guard; so when the
response to s1 arrives after the response to s2 has been applied, the cache
reflects s1's data — the result is exactly as if only s1's response had ever
been applied (last arrival wins). -/
theorem commitReconcile_last_arrival_wins : ∀ (items : List Item) (itId : String) (u1 u2 : Item),
    u2.id = itId →
    commitReconcile itId u1 (commitReconcile itId u2 items) = commitReconcile itId u1 items := by
  intro items itId u1 u2 h2
  unfold commitReconcile
  rw [List.map_map]
  congr 1
  funext x
  by_cases hx : x.id = itId <;> simp [Function.comp, hx, h2]

/-- Witness for the amended C1: a late response `u1` applied after `u2` yields
the same cache as applying `u1` alone. -/
theorem commitReconcile_last_arrival_wins_witness :
    commitReconcile "i1"
        { id := "i1", boardId := "b1", groupId := "g1", status := "Todo", name := "A",
          assigneeId := none, dueDate := none, order := 1, deleted := false, deletedAt := none }
        (commitReconcile "i1"
          { id := "i1", boardId := "b1", groupId := "g1", status := "Todo", name := "B",
            assigneeId := none, dueDate := none, order := 1, deleted := false, deletedAt := none }
          [{ id := "i1", boardId := "b1", groupId := "g1", status := "Todo", name := "orig",
             assigneeId := none, dueDate := none, order := 1, deleted := false, deletedAt := none }]) =
      commitReconcile "i1"
        { id := "i1", boardId := "b1", groupId := "g1", status := "Todo", name := "A",
          assigneeId := none, dueDate := none, order := 1, deleted := false, deletedAt := none }
        [{ id := "i1", boardId := "b1", groupId := "g1", status := "Todo", name := "orig",
           assigneeId := none, dueDate := none, order := 1, deleted := false, deletedAt := none }] :=
  commitReconcile_last_arrival_wins _ "i1" _ _ rfl

/-- Claim C2 (counterexample): a `moveItem` of item `i1` from lane
`(g1, Todo)` to `(g2, Doing)` at order 5 whose remote update request fails
(`result = none`, the `catch` block is `/*ignore*/`) leaves the cache holding
the optimistically moved item, not the pre-mutation snapshot: the failed
mutation does change the cache, contradicting the claim. -/
theorem moveItem_failure_no_rollback_cex :
    (moveItem "i1" "g2" "Doing" (some 5) [] 0 none
        [{ id := "i1", boardId := "b1", groupId := "g1", status := "Todo", name := "t",
           assigneeId := none, dueDate := none, order := 1, deleted := false, deletedAt := none }] =
      [{ id := "i1", boardId := "b1", groupId := "g2", status := "Doing", name := "t",
         assigneeId := none, dueDate := none, order := 5, deleted := false, deletedAt := none }]) ∧
    moveItem "i1" "g2" "Doing" (some 5) [] 0 none
        [{ id := "i1", boardId := "b1", groupId := "g1", status := "Todo", name := "t",
           assigneeId := none, dueDate := none, order := 1, deleted := false, deletedAt := none }] ≠
      [{ id := "i1", boardId := "b1", groupId := "g1", status := "Todo", name := "t",
         assigneeId := none, dueDate := none, order := 1, deleted := false, deletedAt := none }] := by
  constructor
  · rfl
  · decide

/-- Claim C2 (amended): when the remote update request of a `moveItem` fails,
the failure is silently swallowed and the optimistic change remains in the
cache: every cached entry for the moved item keeps the new `groupId`,
`status`, and `order`; the cache is not restored to the pre-mutation
snapshot. -/
theorem moveItem_failure_keeps_optimistic : ∀ (itemId toG toS : String) (o : ℚ)
    (target : List Item) (now : ℚ) (items : List Item) (x : Item),
    x ∈ moveItem itemId toG toS (some o) target now none items →
    x.id = itemId →
    x.groupId = toG ∧ x.status = toS ∧ x.order = o := by
  intro itemId toG toS o target now items x hx hid
  simp only [moveItem, moveItemOrder] at hx
  rcases List.mem_map.1 hx with ⟨a, ha, hax⟩
  by_cases haid : a.id = itemId
  · rw [if_pos haid] at hax
    subst hax
    exact ⟨rfl, rfl, rfl⟩
  · rw [if_neg haid] at hax
    subst hax
    exact absurd hid haid

/-- Witness for the amended C2: after the failed move of the counterexample
scenario, the cached entry for `i1` carries the destination lane and order. -/
theorem moveItem_failure_keeps_optimistic_witness :
    ({ id := "i1", boardId := "b1", groupId := "g2", status := "Doing", name := "t",
       assigneeId := none, dueDate := none, order := 5, deleted := false, deletedAt := none } : Item).groupId = "g2" ∧
    ({ id := "i1", boardId := "b1", groupId := "g2", status := "Doing", name := "t",
       assigneeId := none, dueDate := none, order := 5, deleted := false, deletedAt := none } : Item).status = "Doing" ∧
    ({ id := "i1", boardId := "b1", groupId := "g2", status := "Doing", name := "t",
       assigneeId := none, dueDate := none, order := 5, deleted := false, deletedAt := none } : Item).order = 5 :=
  moveItem_failure_keeps_optimistic "i1" "g2" "Doing" 5 [] 0
    [{ id := "i1", boardId := "b1", groupId := "g1", status := "Todo", name := "t",
       assigneeId := none, dueDate := none, order := 1, deleted := false, deletedAt := none }]
    _ (by decide) rfl

/-- Claim C6 (counterexample): the `created` branch of the realtime handler is
`setItems(prev => [...prev, it])` with no presence check. Applying a `created`
event whose item identity (`i1`) is already in the cache appends it anyway,
leaving two cache entries with identity `i1` — a duplicate, contradicting the
claim. -/
theorem handler_created_duplicate_cex :
    (handler "b1" false
        ⟨.created, { id := "i1", boardId := "b1", groupId := "g1", status := "Todo", name := "copy",
                     assigneeId := none, dueDate := none, order := 2, deleted := false, deletedAt := none }⟩
        [{ id := "i1", boardId := "b1", groupId := "g1", status := "Todo", name := "orig",
           assigneeId := none, dueDate := none, order := 1, deleted := false, deletedAt := none }]) =
      [{ id := "i1", boardId := "b1", groupId := "g1", status := "Todo", name := "orig",
         assigneeId := none, dueDate := none, order := 1, deleted := false, deletedAt := none },
       { id := "i1", boardId := "b1", groupId := "g1", status := "Todo", name := "copy",
         assigneeId := none, dueDate := none, order := 2, deleted := false, deletedAt := none }] ∧
    (handler "b1" false
        ⟨.created, { id := "i1", boardId := "b1", groupId := "g1", status := "Todo", name := "copy",
                     assigneeId := none, dueDate := none, order := 2, deleted := false, deletedAt := none }⟩
        [{ id := "i1", boardId := "b1", groupId := "g1", status := "Todo", name := "orig",
           assigneeId := none, dueDate := none, order := 1, deleted := false, deletedAt := none }]).countP
      (fun x => x.id == "i1") = 2 := by
  constructor
  · rfl
  · rfl

/-- Claim C6 (amended): for every `created` push event matching the current
board, the Realtime Event Reducer appends the event's item to the cache
unconditionally, with no presence check; so when an item with the same
identity is already present, the result contains a duplicate entry (at least
two entries with that identity). -/
theorem handler_created_appends : ∀ (boardId : String) (showDeleted : Bool) (it : Item) (items : List Item),
    it.boardId = boardId →
    handler boardId showDeleted ⟨.created, it⟩ items = items ++ [it] ∧
    (0 < items.countP (fun x => x.id == it.id) →
      2 ≤ (handler boardId showDeleted ⟨.created, it⟩ items).countP (fun x => x.id == it.id)) := by
  intro b sd it items hb
  have happ : handler b sd ⟨.created, it⟩ items = items ++ [it] := by
    simp [handler, hb]
  refine ⟨happ, fun hpos => ?_⟩
  rw [happ, List.countP_append]
  have h1 : ([it] : List Item).countP (fun x => x.id == it.id) = 1 := by simp
  omega

/-- Witness for the amended C6: with identity `i1` already cached, the
`created` event for `i1` yields at least two entries with identity `i1`. -/
theorem handler_created_appends_witness :
    2 ≤ (handler "b1" false
        ⟨.created, { id := "i1", boardId := "b1", groupId := "g1", status := "Todo", name := "copy",
                     assigneeId := none, dueDate := none, order := 2, deleted := false, deletedAt := none }⟩
        [{ id := "i1", boardId := "b1", groupId := "g1", status := "Todo", name := "orig",
           assigneeId := none, dueDate := none, order := 1, deleted := false, deletedAt := none }]).countP
      (fun x => x.id ==
        ({ id := "i1", boardId := "b1", groupId := "g1", status := "Todo", name := "copy",
           assigneeId := none, dueDate := none, order := 2, deleted := false, deletedAt := none } : Item).id) :=
  (handler_created_appends "b1" false _ _ rfl).2 (by decide)

/-- Claim C7: when the remote delete request of `softDelete` fails, the undo
path runs automatically: the issued requests are exactly the delete patch
(`deleted: true`) followed by the compensating patch clearing the tombstone
(`deleted: false`), and when that compensating update returns a server
snapshot `it2`, `it2` is put back into the cache. -/
theorem softDelete_failed_delete_auto_undo : ∀ (item : Item) (showDeleted : Bool) (now : String)
    (undoResp : Option Item) (items : List Item),
    (softDelete item showDeleted now false undoResp items).2 =
      [(item.id, true), (item.id, false)] ∧
    (∀ it2, undoResp = some it2 → it2 ∈ (softDelete item showDeleted now false undoResp items).1) := by
  intro item sd now undoResp items
  constructor
  · cases undoResp <;> simp [softDelete]
  · intro it2 h2
    subst h2
    simp only [softDelete, Bool.false_eq_true, if_false]
    exact mem_upsert_self it2 _

/-- Witness for C7: a failed delete of `i1` (tombstone view off, empty
remaining cache) followed by a successful compensating update puts the
restored snapshot back into the cache. -/
theorem softDelete_failed_delete_auto_undo_witness :
    ({ id := "i1", boardId := "b1", groupId := "g1", status := "Todo", name := "t",
       assigneeId := none, dueDate := none, order := 1, deleted := false, deletedAt := none } : Item) ∈
      (softDelete
        { id := "i1", boardId := "b1", groupId := "g1", status := "Todo", name := "t",
          assigneeId := none, dueDate := none, order := 1, deleted := false, deletedAt := none }
        false "2025-01-01"
        false
        (some { id := "i1", boardId := "b1", groupId := "g1", status := "Todo", name := "t",
                assigneeId := none, dueDate := none, order := 1, deleted := false, deletedAt := none })
        [{ id := "i1", boardId := "b1", groupId := "g1", status := "Todo", name := "t",
           assigneeId := none, dueDate := none, order := 1, deleted := false, deletedAt := none }]).1 :=
  (softDelete_failed_delete_auto_undo _ false "2025-01-01" _ _).2 _ rfl

/-- Claim C9: in every state reachable by the polling effect, (1) while the
connection is `Connected` a tick issues no poll refetch (the interval is
suspended), (2) while not `Connected` a poll refetch is issued within one
polling interval (5 time units), (3) the instant the connection reaches
`Connected` the interval is cleared, and (4) the instant it leaves `Connected`
a fresh interval with a full period is installed. -/
theorem poller_exactly_while_disconnected : ∀ (evs : List ConnEvent),
    ((runPoll evs).connected = true → (pstep (runPoll evs) ConnEvent.tick).2 = false) ∧
    ((runPoll evs).connected = false → firesWithin (runPoll evs) 5 = true) ∧
    ((pstep (runPoll evs) (ConnEvent.setConnected true)).1.timer = none) ∧
    ((runPoll evs).connected = true →
      (pstep (runPoll evs) (ConnEvent.setConnected false)).1.timer = some 5) := by
  intro evs
  obtain ⟨hc, hd⟩ := pollInv_run evs
  refine ⟨?_, ?_, ?_, ?_⟩
  · intro h
    simp [pstep, hc h]
  · intro h
    obtain ⟨n, ht, h1, h5⟩ := hd h
    have heq : (⟨(runPoll evs).connected, some n⟩ : PollState) = runPoll evs := by
      rw [← ht]
    rw [← heq, h]
    exact firesWithin_of_timer false n h1 h5
  · cases hcv : (runPoll evs).connected with
    | false => simp [pstep, hcv]
    | true =>
        have hcv' : true = (runPoll evs).connected := hcv.symm
        simp [pstep, hcv', hc hcv]
  · intro h
    have h' : ¬ (false = (runPoll evs).connected) := by simp [h]
    simp [pstep, h']

/-- Witness for C9: right after mount (no events yet) the connection is not
`Connected` and a poll refetch is issued within 5 ticks. -/
theorem poller_exactly_while_disconnected_witness :
    firesWithin (runPoll []) 5 = true :=
  (poller_exactly_while_disconnected []).2.1 rfl
